import Mathlib

/-!
Verification development for the IoT sensor-monitoring program
(linked-list container `ListaSensor`, sensor variants `SensorTemperatura` /
`SensorPresion`, serial line channel `SerialPort`, and the ingestion loop
`capturarDatosHardware` of `main.cpp`).

The C++ linked list manages raw pointers, so the container is embedded with
an explicit heap: `Memoria T` maps addresses to optional nodes, and every
operation of `ListaSensor.h` is translated as a function threading that heap.
Machine details that no claim depends on (console formatting, `typeid`
names) are elided; numeric measurements are embedded as `ℚ`/`ℤ`, which is
exact for the comparisons and the small literals the claims mention.
-/

set_option maxHeartbeats 1000000

/-- Nodo.h: a singly linked node holding a value and the address of the next
node (`nullptr` embedded as `none`). -/
structure Nodo (T : Type) where
  dato : T
  siguiente : Option Nat
deriving DecidableEq

/-- Explicit heap for the pointer-based list: a partial map from addresses to
nodes plus the next never-used address (allocation counter). -/
@[ext]
structure Memoria (T : Type) where
  celdas : Nat → Option (Nodo T)
  libre : Nat

/-- Write (or free, with `none`) the cell at one address. -/
def escribir {T : Type} (h : Memoria T) (d : Nat) (c : Option (Nodo T)) : Memoria T :=
  ⟨fun b => if b = d then c else h.celdas b, h.libre⟩

/-- Allocation performed by `new Nodo<T>(contenido)`: the fresh address
`h.libre` receives a node with null `siguiente`. -/
def reservar {T : Type} (h : Memoria T) (x : T) : Memoria T :=
  ⟨fun b => if b = h.libre then some ⟨x, none⟩ else h.celdas b, h.libre + 1⟩

/-- ListaSensor.h fields: `primero` (head pointer) and `elementos` (count,
a C++ `int`, embedded as `ℤ`). -/
structure ListaSensor where
  primero : Option Nat
  elementos : Int
deriving DecidableEq

/-- ListaSensor.h default constructor: null head, zero count. -/
def ListaSensor.nueva : ListaSensor := ⟨none, 0⟩

/-- Tail scan of `insertarAlFinal` (`while (navegador->siguiente != nullptr)`),
with fuel standing in for the acyclicity that the C++ loop relies on. -/
def ultimo {T : Type} (h : Memoria T) : Nat → Nat → Option Nat
  | 0, _ => none
  | fuel + 1, a =>
    match h.celdas a with
    | none => none
    | some n =>
      match n.siguiente with
      | none => some a
      | some b => ultimo h fuel b

/-- ListaSensor.h `insertarAlFinal`: allocate a node, then either set the head
or link it after the last node reached by the tail scan; the count always
increments. The fuel-exhausted and dangling branches are unreachable for
well-formed heaps (in C++ they would be an endless loop or undefined
behaviour). -/
def ListaSensor.insertarAlFinal {T : Type} (h : Memoria T) (l : ListaSensor) (contenido : T) :
    Memoria T × ListaSensor :=
  let dir := h.libre
  let h1 := reservar h contenido
  match l.primero with
  | none => (h1, ⟨some dir, l.elementos + 1⟩)
  | some a =>
    match ultimo h1 h1.libre a with
    | some u =>
      match h1.celdas u with
      | some n => (escribir h1 u (some ⟨n.dato, some dir⟩), ⟨l.primero, l.elementos + 1⟩)
      | none => (h1, ⟨l.primero, l.elementos + 1⟩)
    | none => (h1, ⟨l.primero, l.elementos + 1⟩)

/-- Loop body of `vaciar`: free the head node, advance, decrement the count,
until the head pointer is null. -/
def vaciarAux {T : Type} : Memoria T → Nat → Option Nat → Int → Memoria T × ListaSensor
  | h, _, none, e => (h, ⟨none, e⟩)
  | h, 0, some a, e => (h, ⟨some a, e⟩)
  | h, fuel + 1, some a, e =>
    match h.celdas a with
    | none => (h, ⟨some a, e⟩)
    | some n => vaciarAux (escribir h a none) fuel n.siguiente (e - 1)

/-- ListaSensor.h `vaciar`: releases every node and leaves the list empty. -/
def ListaSensor.vaciar {T : Type} (h : Memoria T) (l : ListaSensor) : Memoria T × ListaSensor :=
  vaciarAux h h.libre l.primero l.elementos

/-- Traversal of `duplicarDesde`: walk the source chain appending each value
to the destination with `insertarAlFinal`. -/
def duplicarAux {T : Type} : Memoria T → ListaSensor → Nat → Option Nat → Memoria T × ListaSensor
  | h, dst, _, none => (h, dst)
  | h, dst, 0, some _ => (h, dst)
  | h, dst, fuel + 1, some a =>
    match h.celdas a with
    | none => (h, dst)
    | some n =>
      let r := ListaSensor.insertarAlFinal h dst n.dato
      duplicarAux r.1 r.2 fuel n.siguiente

/-- ListaSensor.h `duplicarDesde`: early return on a null source head,
otherwise copy every element in order. -/
def ListaSensor.duplicarDesde {T : Type} (h : Memoria T) (dst origen : ListaSensor) :
    Memoria T × ListaSensor :=
  match origen.primero with
  | none => (h, dst)
  | some a => duplicarAux h dst h.libre (some a)

/-- ListaSensor.h copy constructor: start from the empty list (`primero(nullptr),
elementos(0)`) and run `duplicarDesde`. -/
def ListaSensor.copia {T : Type} (h : Memoria T) (origen : ListaSensor) :
    Memoria T × ListaSensor :=
  ListaSensor.duplicarDesde h ListaSensor.nueva origen

/-- ListaSensor.h `operator=`: the source guards with `if (this != &origen)`;
`esMismoObjeto` embeds that pointer-identity test. Otherwise `vaciar` then
`duplicarDesde`. -/
def ListaSensor.opAsignar {T : Type} (h : Memoria T) (dst origen : ListaSensor)
    (esMismoObjeto : Bool) : Memoria T × ListaSensor :=
  if esMismoObjeto then (h, dst)
  else
    let r := ListaSensor.vaciar h dst
    ListaSensor.duplicarDesde r.1 r.2 origen

/-- ListaSensor.h `iterar`: apply the supplied operation to each element's
value in chain order; the caller's captured state is threaded through `s`. -/
def iterar {T σ : Type} (h : Memoria T) (f : T → σ → σ) : Nat → Option Nat → σ → σ
  | _, none, s => s
  | 0, some _, s => s
  | fuel + 1, some a, s =>
    match h.celdas a with
    | none => s
    | some n => iterar h f fuel n.siguiente (f n.dato s)

/-- Number of nodes reachable from a pointer by following `siguiente`
(fuel-bounded traversal, like `iterar`). -/
def contarNodos {T : Type} (h : Memoria T) : Nat → Option Nat → Nat
  | _, none => 0
  | 0, some _ => 0
  | fuel + 1, some a =>
    match h.celdas a with
    | none => 0
    | some n => contarNodos h fuel n.siguiente + 1

/-- Fold a whole batch of `insertarAlFinal` calls over an initial state. -/
def insertarVarios {T : Type} (h : Memoria T) (l : ListaSensor) (xs : List T) :
    Memoria T × ListaSensor :=
  xs.foldl (fun p x => ListaSensor.insertarAlFinal p.1 p.2 x) (h, l)

/-- A chain in the heap: starting pointer, the values held, and the addresses
visited, ending at a null `siguiente`. -/
inductive Cadena {T : Type} (h : Memoria T) : Option Nat → List T → List Nat → Prop
  | nil : Cadena h none [] []
  | cons {a : Nat} {v : T} {s : Option Nat} {vs : List T} {ds : List Nat} :
      h.celdas a = some ⟨v, s⟩ → Cadena h s vs ds → Cadena h (some a) (v :: vs) (a :: ds)

/-- Well-formed list object: its head starts a chain carrying `vs` at
addresses `ds`, the count matches, addresses are distinct and all below the
allocation counter. -/
def BuenaLista {T : Type} (h : Memoria T) (l : ListaSensor) (vs : List T) (ds : List Nat) : Prop :=
  Cadena h l.primero vs ds ∧ l.elementos = (vs.length : Int) ∧ ds.Nodup ∧ ∀ d ∈ ds, d < h.libre

/-- States of a list object reachable through its public interface:
default construction, append, clear, copy construction from a well-formed
source, assignment from a disjoint well-formed source, self-assignment. -/
inductive Alcanzable {T : Type} : Memoria T → ListaSensor → Prop
  | construida (h : Memoria T) : Alcanzable h ListaSensor.nueva
  | agregada {h l} (x : T) : Alcanzable h l →
      Alcanzable (ListaSensor.insertarAlFinal h l x).1 (ListaSensor.insertarAlFinal h l x).2
  | limpiada {h l} : Alcanzable h l →
      Alcanzable (ListaSensor.vaciar h l).1 (ListaSensor.vaciar h l).2
  | copiada {h origen vs ds} : BuenaLista h origen vs ds →
      Alcanzable (ListaSensor.copia h origen).1 (ListaSensor.copia h origen).2
  | asignada {h l origen vs ds vl dl} : Alcanzable h l →
      BuenaLista h origen vs ds → BuenaLista h l vl dl → (∀ d ∈ dl, d ∉ ds) →
      Alcanzable (ListaSensor.opAsignar h l origen false).1
        (ListaSensor.opAsignar h l origen false).2
  | autoasignada {h l} : Alcanzable h l →
      Alcanzable (ListaSensor.opAsignar h l l true).1 (ListaSensor.opAsignar h l l true).2

/-- SensorBase.h constructor: `strncpy(nombre, identificador, 49)` followed by
a forced terminator keeps at most 49 characters of the identifier. -/
def truncarNombre (s : String) : String :=
  String.mk (s.toList.take 49)

/-- The two concrete sensor variants of the program, reduced to their
observable state: stored identifier and measurement history (`float` history
for `SensorTemperatura`, `int` history for `SensorPresion`). -/
inductive Sensor where
  | sensorTemperatura (nombre : String) (registroMediciones : List ℚ)
  | sensorPresion (nombre : String) (registroMediciones : List ℤ)
deriving DecidableEq

/-- SensorBase.h `getNombre`. -/
def Sensor.getNombre : Sensor → String
  | .sensorTemperatura nombre _ => nombre
  | .sensorPresion nombre _ => nombre

/-- SensorTemperatura.h `procesarLectura`: empty history reports "sin datos"
(`none`); otherwise the running minimum starts at the sentinel `999999.0f`
and each reading below the current minimum replaces it. -/
def SensorTemperatura.procesarLectura (registroMediciones : List ℚ) : Option ℚ :=
  if registroMediciones = [] then none
  else
    some (registroMediciones.foldl
      (fun valorMinimo medida => if medida < valorMinimo then medida else valorMinimo)
      999999)

/-- SensorPresion.h `procesarLectura`: empty history reports "sin datos"
(`none`); otherwise the integer readings are summed, the count taken, and the
mean is the floating-point quotient (exact here in `ℚ`). -/
def SensorPresion.procesarLectura (registroMediciones : List ℤ) : Option ℚ :=
  if registroMediciones = [] then none
  else
    let acumulador : ℤ := registroMediciones.foldl (fun a medida => a + medida) (0 : ℤ)
    let cantidadDatos : ℤ := registroMediciones.length
    some ((acumulador : ℚ) / (cantidadDatos : ℚ))

/-- Whitespace as skipped by `istringstream` extraction. -/
def esEspacio (c : Char) : Bool :=
  c = ' ' || c = '\t' || c = '\n' || c = '\r'

/-- Whether the first list is an initial segment of the second. -/
def prefijoDe : List Char → List Char → Bool
  | [], _ => true
  | _ :: _, [] => false
  | a :: s, b :: t => a = b && prefijoDe s t

/-- Substring test, as used by `buffer.find(...) != npos` in the banner
filter of `capturarDatosHardware`. -/
def contiene : List Char → List Char → Bool
  | [], sub => sub.isEmpty
  | c :: resto, sub => prefijoDe sub (c :: resto) || contiene resto sub

/-- Stream extraction into a `char`: skip whitespace, take one character,
fail at end of input. -/
def leerChar? (s : List Char) : Option (Char × List Char) :=
  match s.dropWhile esEspacio with
  | [] => none
  | c :: resto => some (c, resto)

/-- Stream extraction into a `std::string`: skip whitespace, take the maximal
run of non-whitespace characters, fail at end of input. -/
def leerToken? (s : List Char) : Option (List Char × List Char) :=
  match s.dropWhile esEspacio with
  | [] => none
  | c :: resto => some ((c :: resto).takeWhile (fun d => !esEspacio d),
                        (c :: resto).dropWhile (fun d => !esEspacio d))

/-- Value of a digit string read in base 10. -/
def valorDigitos (ds : List Char) : Nat :=
  ds.foldl (fun n c => 10 * n + (c.toNat - 48)) 0

/-- Optional sign consumed at the start of a numeric extraction: whether the
value is negated, and the remaining characters. -/
def signo : List Char → Bool × List Char
  | '+' :: r => (false, r)
  | '-' :: r => (true, r)
  | r => (false, r)

/-- Stream extraction into an `int` (`num_get` semantics): skip whitespace,
optional sign, then the longest run of decimal digits; fails when no digit
follows the sign, succeeds on a numeric prefix and leaves the rest in the
stream (so " +10" reads 10, "10abc" reads 10 leaving "abc", "-x" fails). -/
def leerEntero? (s : List Char) : Option (ℤ × List Char) :=
  let t := s.dropWhile esEspacio
  let p := signo t
  let ds := p.2.takeWhile Char.isDigit
  if ds.isEmpty then none
  else
    let v : ℤ := valorDigitos ds
    some (if p.1 then -v else v, p.2.dropWhile Char.isDigit)

/-- Mantissa of a float extraction: digits with an optional fractional part,
at least one digit overall ("23", "1." and ".5" all parse; "." fails). -/
def mantisa? (t1 : List Char) : Option (ℚ × List Char) :=
  let ent := t1.takeWhile Char.isDigit
  match t1.dropWhile Char.isDigit with
  | '.' :: r =>
    let frac := r.takeWhile Char.isDigit
    if ent.isEmpty && frac.isEmpty then none
    else
      some ((valorDigitos ent : ℚ) + (valorDigitos frac : ℚ) / (10 : ℚ) ^ frac.length,
            r.dropWhile Char.isDigit)
  | t2 =>
    if ent.isEmpty then none
    else some ((valorDigitos ent : ℚ), t2)

/-- Exponent part of a float extraction. After an `e`/`E` the digits are
mandatory: `num_get` accumulates the `e` (and an optional sign) and then the
conversion of the whole accumulated text fails when no digit follows, so
"1e3" reads 1000 but "1eX" fails as a whole. Without an `e` the multiplier
is 1 and nothing is consumed. -/
def exponente? : List Char → Option (ℚ × List Char)
  | c :: r =>
    if c = 'e' || c = 'E' then
      let p := signo r
      let ds := p.2.takeWhile Char.isDigit
      if ds.isEmpty then none
      else
        let ex := valorDigitos ds
        some (if p.1 then (1 : ℚ) / (10 : ℚ) ^ ex else (10 : ℚ) ^ ex,
              p.2.dropWhile Char.isDigit)
    else some (1, c :: r)
  | [] => some (1, [])

/-- Stream extraction into a `float` (`num_get` semantics): skip whitespace,
optional sign, mantissa, optional exponent; succeeds on a numeric prefix and
leaves the rest in the stream (so "23.5C" reads 23.5 leaving "C"). -/
def leerDecimal? (s : List Char) : Option (ℚ × List Char) :=
  let t := s.dropWhile esEspacio
  let p := signo t
  match mantisa? p.2 with
  | none => none
  | some (m, r1) =>
    match exponente? r1 with
    | none => none
    | some (k, r2) => some ((if p.1 then -m else m) * k, r2)

/-- Console messages emitted inside the per-line block of
`capturarDatosHardware`, abstracted as events (the `[RX]`, `[WARN]`, `[OK]`
and `[INFO]` lines). -/
inductive Evento where
  | rx (linea : String)
  | warnFormato
  | warnValorTemperatura
  | warnValorPresion
  | warnTipoNoReconocido (c : Char)
  | okSensorRegistrado (identificador : String)
  | okMedicionAlmacenada (identificador : String)
  | infoTotal (n : Nat)
deriving DecidableEq

/-- Whether an event is one of the `[WARN]` console lines. -/
def esAdvertencia : Evento → Bool
  | .warnFormato => true
  | .warnValorTemperatura => true
  | .warnValorPresion => true
  | .warnTipoNoReconocido _ => true
  | _ => false

/-- Lookup lambda of `capturarDatosHardware` (and of menu option 3): iterate
over the registry and record every sensor whose stored name equals the
identifier, so the captured pointer ends up at the LAST match. -/
def buscarSensor (registro : List Sensor) (identificador : String) : Option Sensor :=
  registro.foldl
    (fun dispositivoExistente dispositivo =>
      if dispositivo.getNombre = identificador then some dispositivo else dispositivoExistente)
    none

/-- Whether some sensor in the registry carries the given stored name. -/
def hayNombre (registro : List Sensor) (identificador : String) : Bool :=
  registro.any (fun s => s.getNombre = identificador)

/-- Mutation through the pointer captured by the lookup lambda: apply `f` to
the last sensor of the registry whose name matches. -/
def actualizarUltimo : List Sensor → String → (Sensor → Sensor) → List Sensor
  | [], _, _ => []
  | s :: resto, identificador, f =>
    if hayNombre resto identificador then s :: actualizarUltimo resto identificador f
    else if s.getNombre = identificador then f s :: resto
    else s :: actualizarUltimo resto identificador f

/-- SensorTemperatura.h `agregarLectura` applied through the base pointer. -/
def agregarLecturaTemp (medicion : ℚ) : Sensor → Sensor
  | .sensorTemperatura nombre ms => .sensorTemperatura nombre (ms ++ [medicion])
  | s => s

/-- SensorPresion.h `agregarLectura` applied through the base pointer. -/
def agregarLecturaPres (medicion : ℤ) : Sensor → Sensor
  | .sensorPresion nombre ms => .sensorPresion nombre (ms ++ [medicion])
  | s => s

/-- One iteration of the ingestion loop of `capturarDatosHardware`
(main.cpp lines 84-165) on a received line: banner filtering, tokenization,
registry lookup, and the per-type-tag branches, returning the new registry,
the new reading counter, and the console events of this iteration. -/
def capturaLinea (registro : List Sensor) (contadorLecturas : Nat) (buffer : String) :
    List Sensor × Nat × List Evento :=
  let cs := buffer.toList
  if contiene cs ("===".toList) || contiene cs ("Arduino".toList) ||
      contiene cs ("Formato".toList) || cs.isEmpty then
    (registro, contadorLecturas, [])
  else
    match leerChar? cs with
    | none => (registro, contadorLecturas, [.rx buffer, .warnFormato])
    | some (tipoDispositivo, resto1) =>
      match leerToken? resto1 with
      | none => (registro, contadorLecturas, [.rx buffer, .warnFormato])
      | some (identTok, resto2) =>
        let identificador := String.mk identTok
        let dispositivoExistente := buscarSensor registro identificador
        if tipoDispositivo = 'T' || tipoDispositivo = 't' then
          match leerDecimal? resto2 with
          | none => (registro, contadorLecturas, [.rx buffer, .warnValorTemperatura])
          | some (medicion, _) =>
            match dispositivoExistente with
            | none =>
              (registro ++ [.sensorTemperatura (truncarNombre identificador) [medicion]],
               contadorLecturas + 1,
               [.rx buffer, .okSensorRegistrado identificador,
                .infoTotal (contadorLecturas + 1)])
            | some (.sensorTemperatura _ _) =>
              (actualizarUltimo registro identificador (agregarLecturaTemp medicion),
               contadorLecturas + 1,
               [.rx buffer, .okMedicionAlmacenada identificador,
                .infoTotal (contadorLecturas + 1)])
            | some (.sensorPresion _ _) =>
              (registro, contadorLecturas + 1, [.rx buffer, .infoTotal (contadorLecturas + 1)])
        else if tipoDispositivo = 'P' || tipoDispositivo = 'p' then
          match leerEntero? resto2 with
          | none => (registro, contadorLecturas, [.rx buffer, .warnValorPresion])
          | some (medicion, _) =>
            match dispositivoExistente with
            | none =>
              (registro ++ [.sensorPresion (truncarNombre identificador) [medicion]],
               contadorLecturas + 1,
               [.rx buffer, .okSensorRegistrado identificador,
                .infoTotal (contadorLecturas + 1)])
            | some (.sensorPresion _ _) =>
              (actualizarUltimo registro identificador (agregarLecturaPres medicion),
               contadorLecturas + 1,
               [.rx buffer, .okMedicionAlmacenada identificador,
                .infoTotal (contadorLecturas + 1)])
            | some (.sensorTemperatura _ _) =>
              (registro, contadorLecturas + 1, [.rx buffer, .infoTotal (contadorLecturas + 1)])
        else
          (registro, contadorLecturas,
           [.rx buffer, .warnTipoNoReconocido tipoDispositivo])

/-- Outcome of one `read()` call on the serial descriptor: a transport error
(negative return), an empty buffer (zero return, busy wait), or one byte. -/
inductive Lectura where
  | errorTransporte
  | sinDatos
  | dato (c : Char)
deriving DecidableEq

/-- Result of `leerLinea`: a completed line with the unconsumed transport
suffix, a `false` return with the unconsumed suffix, or the loop still
blocked when the modelled input runs out. -/
inductive ResLinea where
  | exito (linea : List Char) (resto : List Lectura)
  | fallo (resto : List Lectura)
  | bloqueado
deriving DecidableEq

/-- The byte delivered by a successful read, if any. -/
def datoDe : Lectura → Option Char
  | .dato c => some c
  | _ => none

/-- Line terminators recognized by `leerLinea`. -/
def esTerminador (c : Char) : Bool :=
  c = '\n' || c = '\r'

/-- Read loop of SerialPort.h `leerLinea`: errors return `false`; empty reads
busy-wait; a terminator returns the accumulated line only when it is
non-empty (empty lines are skipped); other bytes are appended. -/
def leerLineaAux : List Lectura → List Char → ResLinea
  | [], _ => .bloqueado
  | .errorTransporte :: resto, _ => .fallo resto
  | .sinDatos :: resto, acc => leerLineaAux resto acc
  | .dato c :: resto, acc =>
    if esTerminador c then
      if acc.isEmpty then leerLineaAux resto acc else .exito acc resto
    else leerLineaAux resto (acc ++ [c])

/-- SerialPort.h state: file descriptor and connection flag. -/
structure SerialPort where
  descriptorArchivo : Int
  estadoConexion : Bool
deriving DecidableEq

/-- SerialPort.h default constructor: descriptor `-1`, closed. -/
def SerialPort.nuevo : SerialPort := ⟨-1, false⟩

/-- SerialPort.h `cerrar`: only acts when open with a valid descriptor. -/
def SerialPort.cerrar (p : SerialPort) : SerialPort :=
  if p.estadoConexion && decide (0 ≤ p.descriptorArchivo) then ⟨-1, false⟩ else p

/-- SerialPort.h `leerLinea`: the guard `!estadoConexion || descriptorArchivo
< 0` returns `false` before any read; otherwise the read loop runs with an
empty accumulator. -/
def SerialPort.leerLinea (p : SerialPort) (entrada : List Lectura) : ResLinea :=
  if !p.estadoConexion || decide (p.descriptorArchivo < 0) then .fallo entrada
  else leerLineaAux entrada []

/-- Reading a cell after `escribir`. -/
theorem celdas_escribir {T : Type} (h : Memoria T) (d : Nat) (c : Option (Nodo T)) (b : Nat) :
    (escribir h d c).celdas b = if b = d then c else h.celdas b := rfl

/-- `escribir` keeps the allocation counter. -/
theorem libre_escribir {T : Type} (h : Memoria T) (d : Nat) (c : Option (Nodo T)) :
    (escribir h d c).libre = h.libre := rfl

/-- Reading a cell after `reservar`. -/
theorem celdas_reservar {T : Type} (h : Memoria T) (x : T) (b : Nat) :
    (reservar h x).celdas b = if b = h.libre then some ⟨x, none⟩ else h.celdas b := rfl

/-- `reservar` bumps the allocation counter. -/
theorem libre_reservar {T : Type} (h : Memoria T) (x : T) :
    (reservar h x).libre = h.libre + 1 := rfl

/-- A chain only depends on the heap cells at its own addresses. -/
theorem cadena_marco {T : Type} {h h' : Memoria T} {p : Option Nat} {vs : List T}
    {ds : List Nat} (hc : Cadena h p vs ds)
    (hmismo : ∀ d ∈ ds, h'.celdas d = h.celdas d) : Cadena h' p vs ds := by
  induction hc with
  | nil => exact Cadena.nil
  | cons ha _ ih =>
    refine Cadena.cons ?_ (ih fun d hd => hmismo d (List.mem_cons_of_mem _ hd))
    rw [hmismo _ (List.mem_cons_self _ _)]
    exact ha

/-- A chain holds as many values as addresses. -/
theorem cadena_longitud {T : Type} {h : Memoria T} {p : Option Nat} {vs : List T}
    {ds : List Nat} (hc : Cadena h p vs ds) : vs.length = ds.length := by
  induction hc with
  | nil => rfl
  | cons _ _ ih => simpa using ih

/-- A duplicate-free list of naturals all below `n` has at most `n` members. -/
theorem longitud_de_acotada {ds : List Nat} {n : Nat} (hnd : ds.Nodup)
    (hlt : ∀ d ∈ ds, d < n) : ds.length ≤ n := by
  classical
  have hsub : ds.toFinset ⊆ Finset.range n := by
    intro d hd
    rw [List.mem_toFinset] at hd
    exact Finset.mem_range.mpr (hlt d hd)
  have := Finset.card_le_card hsub
  rwa [List.toFinset_card_of_nodup hnd, Finset.card_range] at this

/-- The tail scan lands on the last address of the chain when given enough
fuel. -/
theorem ultimo_encuentra {T : Type} {h : Memoria T} {p : Option Nat} {vs : List T}
    {ds : List Nat} (hc : Cadena h p vs ds) :
    ∀ a, p = some a → ∀ fuel, ds.length ≤ fuel → ultimo h fuel a = ds.getLast? := by
  induction hc with
  | nil => intro a ha; cases ha
  | cons ha hsub ih =>
    intro a' heq fuel hfuel
    cases heq
    match fuel, hfuel with
    | fuel + 1, hfuel =>
      cases hsub with
      | nil => simp [ultimo, ha]
      | cons hb hsub2 =>
        simp only [ultimo, ha]
        rw [ih _ rfl fuel (by simp only [List.length_cons] at hfuel ⊢; omega)]
        simp [List.getLast?_cons_cons]

/-- Linking a freshly allocated node after the last node of a chain extends
the chain by that node. -/
theorem cadena_snoc {T : Type} {h : Memoria T} {p : Option Nat} {vs : List T} {ds : List Nat}
    {dir : Nat} {x : T} (hc : Cadena h p vs ds) (hnd : ds.Nodup) (hdirno : dir ∉ ds)
    (hdir : h.celdas dir = some ⟨x, none⟩) :
    ∀ u, ds.getLast? = some u → ∃ n : Nodo T, h.celdas u = some n ∧ n.siguiente = none ∧
      Cadena (escribir h u (some ⟨n.dato, some dir⟩)) p (vs ++ [x]) (ds ++ [dir]) := by
  induction hc with
  | nil => intro u hu; cases hu
  | @cons a v sig vs2 ds2 ha hsub ih =>
    intro u hu
    cases hsub with
    | nil =>
      simp only [List.getLast?] at hu
      cases hu
      refine ⟨⟨v, none⟩, ha, rfl, ?_⟩
      refine Cadena.cons (s := some dir) (by simp [celdas_escribir]) ?_
      refine Cadena.cons (s := none) ?_ Cadena.nil
      have hne : dir ≠ a := by simpa using hdirno
      simp [celdas_escribir, hne, hdir]
    | @cons b vb sigb vsb dsb hb hsub2 =>
      have hnd2 : (b :: dsb).Nodup := (List.nodup_cons.mp hnd).2
      have hdirno2 : dir ∉ b :: dsb := fun hm => hdirno (List.mem_cons_of_mem _ hm)
      have hu2 : (b :: dsb).getLast? = some u := by
        rw [← List.getLast?_cons_cons]
        exact hu
      obtain ⟨n, hn, hnsig, hcad⟩ := ih hnd2 hdirno2 _ hu2
      refine ⟨n, hn, hnsig, ?_⟩
      have hau : a ≠ u := by
        intro hEq
        apply (List.nodup_cons.mp hnd).1
        rw [hEq]
        exact List.mem_of_mem_getLast? hu2
      refine Cadena.cons ?_ hcad
      simp [celdas_escribir, hau, ha]

/-- `iterar` folds the supplied operation over the chain values in order. -/
theorem iterar_recorre {T σ : Type} {h : Memoria T} {p : Option Nat} {vs : List T}
    {ds : List Nat} (hc : Cadena h p vs ds) (f : T → σ → σ) :
    ∀ fuel, ds.length ≤ fuel → ∀ s, iterar h f fuel p s = vs.foldl (fun t x => f x t) s := by
  induction hc with
  | nil => intro fuel _ s; cases fuel <;> rfl
  | cons ha hsub ih =>
    intro fuel hfuel s
    match fuel, hfuel with
    | fuel + 1, hfuel =>
      simp only [iterar, ha, List.foldl_cons]
      exact ih fuel (by simp only [List.length_cons] at hfuel; omega) _

/-- `contarNodos` counts exactly the chain addresses. -/
theorem contarNodos_cuenta {T : Type} {h : Memoria T} {p : Option Nat} {vs : List T}
    {ds : List Nat} (hc : Cadena h p vs ds) :
    ∀ fuel, ds.length ≤ fuel → contarNodos h fuel p = ds.length := by
  induction hc with
  | nil => intro fuel _; cases fuel <;> rfl
  | cons ha hsub ih =>
    intro fuel hfuel
    match fuel, hfuel with
    | fuel + 1, hfuel =>
      simp only [contarNodos, ha, List.length_cons]
      rw [ih fuel (by simp only [List.length_cons] at hfuel ⊢; omega)]

/-- Specification of `insertarAlFinal` on a well-formed list: the chain gains
the new value at the freshly allocated address, the counter bumps, and every
cell outside the old footprint and the fresh address is untouched. -/
theorem insertar_espec {T : Type} {h : Memoria T} {l : ListaSensor} {vs : List T}
    {ds : List Nat} (hb : BuenaLista h l vs ds) (x : T) :
    BuenaLista (ListaSensor.insertarAlFinal h l x).1 (ListaSensor.insertarAlFinal h l x).2
      (vs ++ [x]) (ds ++ [h.libre]) ∧
    (ListaSensor.insertarAlFinal h l x).1.libre = h.libre + 1 ∧
    ∀ b, b ∉ ds → b ≠ h.libre →
      (ListaSensor.insertarAlFinal h l x).1.celdas b = h.celdas b := by
  obtain ⟨hc, he, hnd, hlt⟩ := hb
  cases hp : l.primero with
  | none =>
    rw [hp] at hc
    cases hc
    simp only [ListaSensor.insertarAlFinal, hp]
    refine ⟨⟨?_, ?_, ?_, ?_⟩, ?_, ?_⟩
    · exact Cadena.cons (by simp [celdas_reservar]) Cadena.nil
    · simpa using he
    · simp
    · simp [libre_reservar]
    · simp [libre_reservar]
    · intro b _ hbne
      simp [celdas_reservar, hbne]
  | some a =>
    rw [hp] at hc
    have hmarco1 : ∀ d ∈ ds, (reservar h x).celdas d = h.celdas d := by
      intro d hd
      have : d ≠ h.libre := Nat.ne_of_lt (hlt d hd)
      simp [celdas_reservar, this]
    have hc1 : Cadena (reservar h x) (some a) vs ds := cadena_marco hc hmarco1
    have hlen : ds.length ≤ h.libre := longitud_de_acotada hnd hlt
    have hult : ultimo (reservar h x) (reservar h x).libre a = ds.getLast? :=
      ultimo_encuentra hc1 a rfl _ (by rw [libre_reservar]; omega)
    have hds_ne : ds ≠ [] := by cases hc; simp
    obtain ⟨u, hu⟩ : ∃ u, ds.getLast? = some u := by
      cases hgl : ds.getLast? with
      | none => exact absurd (List.getLast?_eq_none_iff.mp hgl) hds_ne
      | some u => exact ⟨u, rfl⟩
    have hdirno : h.libre ∉ ds := fun hm => absurd (hlt _ hm) (by omega)
    have hdir1 : (reservar h x).celdas h.libre = some ⟨x, none⟩ := by simp [celdas_reservar]
    obtain ⟨n, hn, hnsig, hcad⟩ := cadena_snoc hc1 hnd hdirno hdir1 u hu
    have hult' : ultimo (reservar h x) (reservar h x).libre a = some u := by rw [hult, hu]
    have hres : ListaSensor.insertarAlFinal h l x =
        (escribir (reservar h x) u (some ⟨n.dato, some h.libre⟩),
         ⟨l.primero, l.elementos + 1⟩) := by
      simp only [ListaSensor.insertarAlFinal, hp, hult', hn]
    have humem : u ∈ ds := List.mem_of_mem_getLast? (by rw [hu]; rfl)
    rw [hres]
    refine ⟨⟨?_, ?_, ?_, ?_⟩, ?_, ?_⟩
    · rw [hp]; exact hcad
    · simp [he]
    · simp only [List.nodup_append, List.nodup_cons, List.nodup_nil]
      exact ⟨hnd, by simp, by simpa [List.disjoint_singleton] using hdirno⟩
    · intro d hd
      rw [libre_escribir, libre_reservar]
      rcases List.mem_append.mp hd with hd1 | hd2
      · exact Nat.lt_succ_of_lt (hlt d hd1)
      · simp at hd2; omega
    · simp [libre_escribir, libre_reservar]
    · intro b hbnod hbne
      have hbu : b ≠ u := fun hEq => hbnod (hEq ▸ humem)
      simp [celdas_escribir, celdas_reservar, hbu, hbne]

/-- Specification of the `vaciar` loop: it frees exactly the chain cells,
nulls the head and subtracts the chain length from the count. -/
theorem vaciarAux_espec {T : Type} :
    ∀ {vs : List T} {h : Memoria T} {p : Option Nat} {ds : List Nat},
    Cadena h p vs ds → ds.Nodup →
    ∀ fuel, ds.length ≤ fuel → ∀ e : Int,
    vaciarAux h fuel p e =
      (⟨fun b => if b ∈ ds then none else h.celdas b, h.libre⟩,
       ⟨none, e - (vs.length : Int)⟩) := by
  intro vs
  induction vs with
  | nil =>
    intro h p ds hc _ fuel _ e
    cases hc
    cases fuel <;> simp [vaciarAux]
  | cons v vs2 ih =>
    intro h p ds hc hnd fuel hfuel e
    cases hc with
    | @cons a _ s _ ds2 ha hsub =>
      match fuel, hfuel with
      | fuel + 1, hfuel =>
        have hand : a ∉ ds2 := (List.nodup_cons.mp hnd).1
        have hnd2 : ds2.Nodup := (List.nodup_cons.mp hnd).2
        have hsub' : Cadena (escribir h a none) s vs2 ds2 := by
          refine cadena_marco hsub ?_
          intro d hd
          have : d ≠ a := fun hEq => hand (hEq ▸ hd)
          simp [celdas_escribir, this]
        have hpaso : vaciarAux h (fuel + 1) (some a) e =
            vaciarAux (escribir h a none) fuel s (e - 1) := by
          simp only [vaciarAux, ha]
        rw [hpaso, ih hsub' hnd2 fuel (by simp only [List.length_cons] at hfuel; omega) (e - 1)]
        refine Prod.ext ?_ ?_
        · refine Memoria.ext ?_ ?_
          · funext b
            by_cases hba : b = a
            · subst hba
              simp [celdas_escribir, hand]
            · by_cases hbds : b ∈ ds2 <;> simp [celdas_escribir, hba, hbds]
          · simp [libre_escribir]
        · simp only [List.length_cons, ListaSensor.mk.injEq, true_and]
          push_cast
          ring

/-- `vaciar` on a well-formed list frees exactly its footprint and leaves the
empty list with count 0. -/
theorem vaciar_espec {T : Type} {h : Memoria T} {l : ListaSensor} {vs : List T}
    {ds : List Nat} (hb : BuenaLista h l vs ds) :
    ListaSensor.vaciar h l =
      (⟨fun b => if b ∈ ds then none else h.celdas b, h.libre⟩, ⟨none, 0⟩) := by
  obtain ⟨hc, he, hnd, hlt⟩ := hb
  have hlen : ds.length ≤ h.libre := longitud_de_acotada hnd hlt
  have := vaciarAux_espec hc hnd h.libre hlen l.elementos
  rw [ListaSensor.vaciar, this, he]
  have hvd : vs.length = ds.length := cadena_longitud hc
  simp

/-- `vaciar` is the identity on an already-empty list (any heap, any count). -/
theorem vaciar_vacia {T : Type} (h : Memoria T) (e : Int) :
    ListaSensor.vaciar h ⟨none, e⟩ = (h, ⟨none, e⟩) := by
  rw [ListaSensor.vaciar]
  cases hf : h.libre <;> rfl

/-- Specification of the copy traversal: appending a source chain onto a
well-formed destination with a disjoint footprint yields a well-formed list
holding both value sequences in order; the new cells sit at or above the old
allocation counter and no old cell outside the destination footprint moves. -/
theorem duplicarAux_espec {T : Type} :
    ∀ {vs : List T} {h : Memoria T} {p : Option Nat} {ds : List Nat}
      {dst : ListaSensor} {ws : List T} {bs : List Nat},
    Cadena h p vs ds → (∀ d ∈ ds, d < h.libre) →
    BuenaLista h dst ws bs → (∀ b ∈ bs, b ∉ ds) →
    ∀ fuel, vs.length ≤ fuel →
    ∃ cs, BuenaLista (duplicarAux h dst fuel p).1 (duplicarAux h dst fuel p).2
        (ws ++ vs) (bs ++ cs) ∧
      (duplicarAux h dst fuel p).1.libre = h.libre + vs.length ∧
      (∀ c, c ∉ bs → c < h.libre → (duplicarAux h dst fuel p).1.celdas c = h.celdas c) ∧
      (∀ c ∈ cs, h.libre ≤ c) := by
  intro vs
  induction vs with
  | nil =>
    intro h p ds dst ws bs hc _ hdst _ fuel _
    cases hc
    refine ⟨[], ?_, ?_, ?_, ?_⟩
    · cases fuel <;> simpa using hdst
    · cases fuel <;> rfl
    · cases fuel <;> (intro c _ _; rfl)
    · simp
  | cons v vs2 ih =>
    intro h p ds dst ws bs hc hlt hdst hdisj fuel hfuel
    cases hc with
    | @cons a _ s _ ds2 ha hsub =>
      match fuel, hfuel with
      | fuel + 1, hfuel =>
        have hpaso : duplicarAux h dst (fuel + 1) (some a) =
            duplicarAux (ListaSensor.insertarAlFinal h dst v).1
              (ListaSensor.insertarAlFinal h dst v).2 fuel s := by
          simp only [duplicarAux, ha]
        obtain ⟨hins, hinslibre, hinsmarco⟩ := insertar_espec hdst v
        have hsub1 : Cadena (ListaSensor.insertarAlFinal h dst v).1 s vs2 ds2 := by
          refine cadena_marco hsub ?_
          intro d hd
          have hdds : d ∈ a :: ds2 := List.mem_cons_of_mem _ hd
          refine hinsmarco d (fun hdb => hdisj d hdb hdds) (Nat.ne_of_lt (hlt d hdds))
        have hlt1 : ∀ d ∈ ds2, d < (ListaSensor.insertarAlFinal h dst v).1.libre := by
          intro d hd
          rw [hinslibre]
          exact Nat.lt_succ_of_lt (hlt d (List.mem_cons_of_mem _ hd))
        have hdisj1 : ∀ b ∈ bs ++ [h.libre], b ∉ ds2 := by
          intro b hbmem hbds
          rcases List.mem_append.mp hbmem with hb1 | hb2
          · exact hdisj b hb1 (List.mem_cons_of_mem _ hbds)
          · simp at hb2
            subst hb2
            exact absurd (hlt _ (List.mem_cons_of_mem _ hbds)) (by omega)
        obtain ⟨cs2, hbl, hlibre2, hmarco2, hcs2⟩ :=
          ih hsub1 hlt1 hins hdisj1 fuel (by simp only [List.length_cons] at hfuel; omega)
        rw [hpaso]
        refine ⟨h.libre :: cs2, ?_, ?_, ?_, ?_⟩
        · have : ws ++ [v] ++ vs2 = ws ++ v :: vs2 := by simp
          rw [← this]
          have hbsr : bs ++ h.libre :: cs2 = (bs ++ [h.libre]) ++ cs2 := by simp
          rw [hbsr]
          exact hbl
        · rw [hlibre2, hinslibre]
          simp only [List.length_cons]
          omega
        · intro c hcb hcl
          have hc1 : c ∉ bs ++ [h.libre] := by
            intro hmem
            rcases List.mem_append.mp hmem with hm1 | hm2
            · exact hcb hm1
            · simp at hm2; omega
          rw [hmarco2 c hc1 (by rw [hinslibre]; omega)]
          exact hinsmarco c hcb (by omega)
        · intro c hcmem
          rcases List.mem_cons.mp hcmem with hc1 | hc2
          · omega
          · have := hcs2 c hc2
            rw [hinslibre] at this
            omega

/-- `duplicarDesde` from a well-formed source onto a disjoint well-formed
destination: appends the source values in order, using only fresh cells. -/
theorem duplicarDesde_espec {T : Type} {h : Memoria T} {origen dst : ListaSensor}
    {vs ws : List T} {ds bs : List Nat} (ho : BuenaLista h origen vs ds)
    (hdst : BuenaLista h dst ws bs) (hdisj : ∀ b ∈ bs, b ∉ ds) :
    ∃ cs, BuenaLista (ListaSensor.duplicarDesde h dst origen).1
        (ListaSensor.duplicarDesde h dst origen).2 (ws ++ vs) (bs ++ cs) ∧
      (ListaSensor.duplicarDesde h dst origen).1.libre = h.libre + vs.length ∧
      (∀ c, c ∉ bs → c < h.libre →
        (ListaSensor.duplicarDesde h dst origen).1.celdas c = h.celdas c) ∧
      (∀ c ∈ cs, h.libre ≤ c) := by
  obtain ⟨hc, he, hnd, hlt⟩ := ho
  cases hp : origen.primero with
  | none =>
    rw [hp] at hc
    cases hc
    rw [ListaSensor.duplicarDesde, hp]
    exact ⟨[], by simpa using hdst, by simp, fun c _ _ => rfl, by simp⟩
  | some a =>
    rw [hp] at hc
    have hlen : vs.length ≤ h.libre := by
      rw [cadena_longitud hc]
      exact longitud_de_acotada hnd hlt
    have := duplicarAux_espec hc hlt hdst hdisj h.libre hlen
    rw [ListaSensor.duplicarDesde, hp]
    exact this

/-- Appending a batch of values keeps the list well formed, extending the
value sequence in order. -/
theorem insertarVarios_espec {T : Type} (xs : List T) :
    ∀ {h : Memoria T} {l : ListaSensor} {vs : List T} {ds : List Nat},
    BuenaLista h l vs ds →
    ∃ cs, BuenaLista (insertarVarios h l xs).1 (insertarVarios h l xs).2
      (vs ++ xs) (ds ++ cs) := by
  induction xs with
  | nil =>
    intro h l vs ds hb
    exact ⟨[], by simpa using hb⟩
  | cons x xs ih =>
    intro h l vs ds hb
    obtain ⟨hins, _, _⟩ := insertar_espec hb x
    obtain ⟨cs2, hbl⟩ := ih hins
    have hpaso : insertarVarios h l (x :: xs) =
        insertarVarios (ListaSensor.insertarAlFinal h l x).1
          (ListaSensor.insertarAlFinal h l x).2 xs := by
      simp [insertarVarios, List.foldl_cons]
    rw [hpaso]
    refine ⟨h.libre :: cs2, ?_⟩
    have h1 : vs ++ x :: xs = (vs ++ [x]) ++ xs := by simp
    have h2 : ds ++ h.libre :: cs2 = (ds ++ [h.libre]) ++ cs2 := by simp
    rw [h1, h2]
    exact hbl

/-- A successful run of the read loop returns a non-empty line free of
terminators, built from exactly the data bytes read before the terminating
byte, with no transport error in between. -/
theorem leerLineaAux_exito :
    ∀ (entrada : List Lectura) (acc l : List Char) (resto : List Lectura),
    (∀ c ∈ acc, esTerminador c = false) →
    leerLineaAux entrada acc = .exito l resto →
    l ≠ [] ∧ (∀ c ∈ l, esTerminador c = false) ∧
    ∃ pre t, esTerminador t = true ∧ entrada = pre ++ .dato t :: resto ∧
      (∀ x ∈ pre, x ≠ .errorTransporte) ∧
      l = acc ++ ((pre.filterMap datoDe).filter fun c => esTerminador c = false) := by
  intro entrada
  induction entrada with
  | nil => intro acc l resto _ hres; simp [leerLineaAux] at hres
  | cons x entrada2 ih =>
    intro acc l resto hacc hres
    cases x with
    | errorTransporte => simp [leerLineaAux] at hres
    | sinDatos =>
      obtain ⟨h1, h2, pre, t, ht, hent, hpre, hl⟩ := ih acc l resto hacc hres
      refine ⟨h1, h2, .sinDatos :: pre, t, ht, by rw [hent]; rfl, ?_, ?_⟩
      · intro y hy
        rcases List.mem_cons.mp hy with hy1 | hy2
        · subst hy1; intro hEq; cases hEq
        · exact hpre y hy2
      · simpa [datoDe] using hl
    | dato c =>
      by_cases hterm : esTerminador c = true
      · rw [leerLineaAux, if_pos hterm] at hres
        by_cases hvacia : acc.isEmpty
        · rw [if_pos hvacia] at hres
          have haccnil : acc = [] := by simpa [List.isEmpty_iff] using hvacia
          obtain ⟨h1, h2, pre, t, ht, hent, hpre, hl⟩ := ih acc l resto hacc hres
          refine ⟨h1, h2, .dato c :: pre, t, ht, by rw [hent]; rfl, ?_, ?_⟩
          · intro y hy
            rcases List.mem_cons.mp hy with hy1 | hy2
            · subst hy1; intro hEq; cases hEq
            · exact hpre y hy2
          · rw [hl, haccnil]
            simp [datoDe, hterm]
        · rw [if_neg hvacia] at hres
          cases hres
          have haccne : acc ≠ [] := by simpa [List.isEmpty_iff] using hvacia
          exact ⟨haccne, hacc, [], c, hterm, rfl, by simp, by simp⟩
      · rw [leerLineaAux, if_neg hterm] at hres
        have hacc2 : ∀ d ∈ acc ++ [c], esTerminador d = false := by
          intro d hd
          rcases List.mem_append.mp hd with hd1 | hd2
          · exact hacc d hd1
          · simp at hd2
            subst hd2
            simpa using hterm
        obtain ⟨h1, h2, pre, t, ht, hent, hpre, hl⟩ := ih (acc ++ [c]) l resto hacc2 hres
        refine ⟨h1, h2, .dato c :: pre, t, ht, by rw [hent]; rfl, ?_, ?_⟩
        · intro y hy
          rcases List.mem_cons.mp hy with hy1 | hy2
          · subst hy1; intro hEq; cases hEq
          · exact hpre y hy2
        · rw [hl]
          simp [datoDe, hterm]

/-- A `false` return of the read loop comes exactly from the first transport
error encountered. -/
theorem leerLineaAux_fallo :
    ∀ (entrada : List Lectura) (acc : List Char) (resto : List Lectura),
    leerLineaAux entrada acc = .fallo resto →
    ∃ pre, entrada = pre ++ .errorTransporte :: resto ∧
      ∀ x ∈ pre, x ≠ .errorTransporte := by
  intro entrada
  induction entrada with
  | nil => intro acc resto hres; simp [leerLineaAux] at hres
  | cons x entrada2 ih =>
    intro acc resto hres
    cases x with
    | errorTransporte =>
      rw [leerLineaAux] at hres
      cases hres
      exact ⟨[], rfl, by simp⟩
    | sinDatos =>
      obtain ⟨pre, hent, hpre⟩ := ih acc resto hres
      refine ⟨.sinDatos :: pre, by rw [hent]; rfl, ?_⟩
      intro y hy
      rcases List.mem_cons.mp hy with hy1 | hy2
      · subst hy1; intro hEq; cases hEq
      · exact hpre y hy2
    | dato c =>
      by_cases hterm : esTerminador c = true
      · rw [leerLineaAux, if_pos hterm] at hres
        by_cases hvacia : acc.isEmpty
        · rw [if_pos hvacia] at hres
          obtain ⟨pre, hent, hpre⟩ := ih acc resto hres
          refine ⟨.dato c :: pre, by rw [hent]; rfl, ?_⟩
          intro y hy
          rcases List.mem_cons.mp hy with hy1 | hy2
          · subst hy1; intro hEq; cases hEq
          · exact hpre y hy2
        · rw [if_neg hvacia] at hres
          cases hres
      · rw [leerLineaAux, if_neg hterm] at hres
        obtain ⟨pre, hent, hpre⟩ := ih (acc ++ [c]) resto hres
        refine ⟨.dato c :: pre, by rw [hent]; rfl, ?_⟩
        intro y hy
        rcases List.mem_cons.mp hy with hy1 | hy2
        · subst hy1; intro hEq; cases hEq
        · exact hpre y hy2

/-- The last-match fold of the lookup lambda, for any accumulator. -/
theorem buscar_ultima_aux (identificador : String) :
    ∀ (registro : List Sensor) (acc : Option Sensor),
    registro.foldl
      (fun dispositivoExistente dispositivo =>
        if dispositivo.getNombre = identificador then some dispositivo
        else dispositivoExistente) acc
      = ((registro.filter fun s => s.getNombre = identificador).getLast?).or acc := by
  intro registro
  induction registro with
  | nil => intro acc; simp
  | cons s resto ih =>
    intro acc
    by_cases hs : s.getNombre = identificador
    · rw [List.foldl_cons, if_pos hs, ih (some s)]
      rw [List.filter_cons_of_pos (by simpa using hs)]
      cases hgl : (resto.filter fun x => x.getNombre = identificador).getLast? with
      | none =>
        rw [List.getLast?_eq_none_iff] at hgl
        simp [hgl]
      | some u =>
        have hne : (resto.filter fun x => x.getNombre = identificador) ≠ [] := by
          intro hnil
          rw [hnil] at hgl
          cases hgl
        cases hfil : (resto.filter fun x => x.getNombre = identificador) with
        | nil => exact absurd hfil hne
        | cons w ws =>
          rw [hfil] at hgl
          simp [List.getLast?_cons_cons, hgl]
    · rw [List.foldl_cons, if_neg hs, ih acc]
      rw [List.filter_cons_of_neg (by simpa using hs)]

/-- C1: on the history [1000000.0, 2000000.0] the thermal sensor's
`procesarLectura` reports the sentinel 999999.0, a value below every recorded
reading and never recorded, instead of the true minimum 1000000.0: the
running minimum is initialized from the fixed sentinel `999999.0f`, not from
the first recorded value, contradicting the specified behaviour. -/
theorem c1_termico_reporta_centinela :
    SensorTemperatura.procesarLectura [1000000, 2000000] = some 999999 ∧
    (999999 : ℚ) ∉ ([1000000, 2000000] : List ℚ) ∧
    (∀ m ∈ ([1000000, 2000000] : List ℚ), (999999 : ℚ) < m) ∧
    SensorTemperatura.procesarLectura [5, 2, 9] = some 2 := by
  refine ⟨by decide, by decide, by decide, by decide⟩

/-- C7: for both sensor variants, `procesarLectura` on an empty measurement
history signals the no-data condition and computes no aggregate. -/
theorem c7_procesar_vacio_sin_datos :
    SensorTemperatura.procesarLectura [] = none ∧
    SensorPresion.procesarLectura [] = none :=
  ⟨rfl, rfl⟩

/-- C4: on every non-empty history the barometric sensor's `procesarLectura`
reports exactly the arithmetic mean, the sum of the integer readings divided
by their count, with fractional precision preserved. -/
theorem c4_presion_media_aritmetica (registroMediciones : List ℤ)
    (hne : registroMediciones ≠ []) :
    SensorPresion.procesarLectura registroMediciones =
      some ((registroMediciones.sum : ℚ) / (registroMediciones.length : ℚ)) := by
  unfold SensorPresion.procesarLectura
  rw [if_neg hne]
  have hfold : ∀ (l : List ℤ) (a : ℤ), l.foldl (fun x y => x + y) a = a + l.sum := by
    intro l
    induction l with
    | nil => intro a; simp
    | cons b t ih => intro a; rw [List.foldl_cons, ih, List.sum_cons]; ring
  have hfold0 : registroMediciones.foldl (fun a m => a + m) (0 : ℤ) =
      registroMediciones.sum := by
    rw [hfold]; ring
  rw [hfold0]
  norm_num

/-- Witness for C4 at the history [101, 102] from the specification, whose
mean 101.5 has a fractional part. -/
theorem c4_presion_media_aritmetica_witness :
    ([101, 102] : List ℤ) ≠ [] ∧
    SensorPresion.procesarLectura [101, 102] =
      some ((([101, 102] : List ℤ).sum : ℚ) / ((([101, 102] : List ℤ).length : Nat) : ℚ)) :=
  ⟨by decide, c4_presion_media_aritmetica [101, 102] (by decide)⟩

/-- C2 counterexample: with two sensors registered under the same identifier
(thermal first, barometric second), the lookup lambda returns the LAST
registered sensor, not the first, refuting the claim as stated. -/
theorem c2_contraejemplo_duplicados :
    buscarSensor [Sensor.sensorTemperatura "DUP-1" [], Sensor.sensorPresion "DUP-1" []]
      "DUP-1" = some (Sensor.sensorPresion "DUP-1" []) ∧
    Sensor.sensorPresion "DUP-1" [] ≠ Sensor.sensorTemperatura "DUP-1" [] := by
  exact ⟨by decide, by decide⟩

/-- C2 amended: the lookup always returns the last sensor whose stored name
equals the identifier exactly (byte-for-byte, hence case-sensitively), and
`none` when no registered sensor carries the identifier. -/
theorem c2_busqueda_ultima_coincidencia (registro : List Sensor) (identificador : String) :
    buscarSensor registro identificador =
      (registro.filter fun s => s.getNombre = identificador).getLast? := by
  rw [buscarSensor, buscar_ultima_aux]
  cases (registro.filter fun s => s.getNombre = identificador).getLast? <;> rfl

/-- C3 counterexample: ingesting "P TEMP-1 10" while TEMP-1 is registered as
thermal leaves the registry unchanged but emits NO warning event — only the
`[RX]` echo and the `[INFO]` total, which even increments — refuting the
"reports a warning" part of the claim. -/
theorem c3_contraejemplo_sin_advertencia :
    capturaLinea [Sensor.sensorTemperatura "TEMP-1" [2]] 0 "P TEMP-1 10" =
      ([Sensor.sensorTemperatura "TEMP-1" [2]], 1,
       [Evento.rx "P TEMP-1 10", Evento.infoTotal 1]) ∧
    ∀ e ∈ [Evento.rx "P TEMP-1 10", Evento.infoTotal 1], esAdvertencia e = false := by
  exact ⟨by decide, by decide⟩

/-- C3 amended: for EVERY ingested line and registry state in the mismatch
scenario — the line passes the banner filter, tokenizes into a type tag, an
identifier and a value that parses for that tag, and the lookup resolves the
identifier to a sensor of the other variant — the reading is silently
discarded: the registry (hence the existing sensor's history) is unchanged,
no warning is reported, and the captured-readings counter still increments.
Both mismatch directions (P-tag on a thermal record, T-tag on a barometric
record). -/
theorem c3_mismatch_descarta_sin_advertencia (registro : List Sensor)
    (contadorLecturas : Nat) (buffer : String) (tipoDispositivo : Char)
    (resto1 identTok resto2 : List Char)
    (hfiltro : (contiene buffer.toList ("===".toList) ||
      contiene buffer.toList ("Arduino".toList) ||
      contiene buffer.toList ("Formato".toList) || buffer.toList.isEmpty) = false)
    (hchar : leerChar? buffer.toList = some (tipoDispositivo, resto1))
    (htok : leerToken? resto1 = some (identTok, resto2)) :
    (∀ (nombre : String) (ms : List ℚ) (medicion : ℤ) (resto3 : List Char),
      tipoDispositivo = 'P' ∨ tipoDispositivo = 'p' →
      leerEntero? resto2 = some (medicion, resto3) →
      buscarSensor registro (String.mk identTok) =
        some (Sensor.sensorTemperatura nombre ms) →
      capturaLinea registro contadorLecturas buffer =
        (registro, contadorLecturas + 1,
         [Evento.rx buffer, Evento.infoTotal (contadorLecturas + 1)])) ∧
    (∀ (nombre : String) (ms : List ℤ) (medicion : ℚ) (resto3 : List Char),
      tipoDispositivo = 'T' ∨ tipoDispositivo = 't' →
      leerDecimal? resto2 = some (medicion, resto3) →
      buscarSensor registro (String.mk identTok) =
        some (Sensor.sensorPresion nombre ms) →
      capturaLinea registro contadorLecturas buffer =
        (registro, contadorLecturas + 1,
         [Evento.rx buffer, Evento.infoTotal (contadorLecturas + 1)])) := by
  constructor
  · intro nombre ms medicion resto3 htag hparse hbusca
    rcases htag with h | h <;> subst h <;>
      (simp only [capturaLinea, hfiltro, hchar, htok, hparse, hbusca]
       rw [if_neg Bool.false_ne_true, if_neg (by decide), if_pos (by decide)])
  · intro nombre ms medicion resto3 htag hparse hbusca
    rcases htag with h | h <;> subst h <;>
      (simp only [capturaLinea, hfiltro, hchar, htok, hparse, hbusca]
       rw [if_neg Bool.false_ne_true, if_pos (by decide)])

/-- Witness for C3: the line "P TEMP-1 +10" against a two-sensor registry in
which TEMP-1 is registered as thermal. -/
theorem c3_mismatch_descarta_sin_advertencia_witness :
    (contiene ("P TEMP-1 +10".toList) ("===".toList) ||
      contiene ("P TEMP-1 +10".toList) ("Arduino".toList) ||
      contiene ("P TEMP-1 +10".toList) ("Formato".toList) ||
      ("P TEMP-1 +10".toList).isEmpty) = false ∧
    leerChar? ("P TEMP-1 +10".toList) = some ('P', " TEMP-1 +10".toList) ∧
    leerToken? (" TEMP-1 +10".toList) = some ("TEMP-1".toList, " +10".toList) ∧
    (('P' : Char) = 'P' ∨ ('P' : Char) = 'p') ∧
    leerEntero? (" +10".toList) = some ((10 : ℤ), ([] : List Char)) ∧
    buscarSensor [Sensor.sensorPresion "BAR-7" [99], Sensor.sensorTemperatura "TEMP-1" [2]]
      (String.mk ("TEMP-1".toList)) = some (Sensor.sensorTemperatura "TEMP-1" [2]) ∧
    capturaLinea [Sensor.sensorPresion "BAR-7" [99], Sensor.sensorTemperatura "TEMP-1" [2]]
      4 "P TEMP-1 +10" =
      ([Sensor.sensorPresion "BAR-7" [99], Sensor.sensorTemperatura "TEMP-1" [2]], 5,
       [Evento.rx "P TEMP-1 +10", Evento.infoTotal 5]) := by
  refine ⟨by decide, by decide, by decide, Or.inl rfl, by decide, by decide, ?_⟩
  exact (c3_mismatch_descarta_sin_advertencia
    [Sensor.sensorPresion "BAR-7" [99], Sensor.sensorTemperatura "TEMP-1" [2]]
    4 "P TEMP-1 +10" 'P' (" TEMP-1 +10".toList) ("TEMP-1".toList) (" +10".toList)
    (by decide) (by decide) (by decide)).1
    "TEMP-1" [2] 10 [] (Or.inl rfl) (by decide) (by decide)

/-- C6: N appends into a freshly constructed list leave the count at N, and
`iterar` applies the supplied operation to the appended elements exactly once
each, in append order (it acts as the fold of the operation over the values
in insertion order, for every operation and every initial state). -/
theorem c6_insertar_tamanio_iterar_orden {T σ : Type} (h : Memoria T) (xs : List T)
    (f : T → σ → σ) (s : σ) :
    (insertarVarios h ListaSensor.nueva xs).2.elementos = (xs.length : Int) ∧
    iterar (insertarVarios h ListaSensor.nueva xs).1 f
        (insertarVarios h ListaSensor.nueva xs).1.libre
        (insertarVarios h ListaSensor.nueva xs).2.primero s
      = xs.foldl (fun t x => f x t) s := by
  have hvac : BuenaLista h ListaSensor.nueva [] [] :=
    ⟨Cadena.nil, by simp [ListaSensor.nueva], List.nodup_nil, by simp⟩
  obtain ⟨cs, hb⟩ := insertarVarios_espec xs hvac
  obtain ⟨hc, he, hnd, hlt⟩ := hb
  constructor
  · simpa using he
  · have hlen : cs.length ≤ (insertarVarios h ListaSensor.nueva xs).1.libre := by
      refine longitud_de_acotada (by simpa using hnd) ?_
      intro d hd
      exact hlt d (by simpa using hd)
    have := iterar_recorre (h := (insertarVarios h ListaSensor.nueva xs).1)
      (by simpa using hc) f (insertarVarios h ListaSensor.nueva xs).1.libre
      (by simpa using hlen) s
    simpa using this

/-- Every list state reachable through the public interface is well formed:
its head starts a duplicate-free chain matching the stored count. -/
theorem alcanzable_buena {T : Type} {h : Memoria T} {l : ListaSensor}
    (hal : Alcanzable h l) : ∃ vs ds, BuenaLista h l vs ds := by
  induction hal with
  | construida h =>
    exact ⟨[], [], Cadena.nil, by simp [ListaSensor.nueva], List.nodup_nil, by simp⟩
  | agregada x hal ih =>
    obtain ⟨vs, ds, hb⟩ := ih
    exact ⟨_, _, (insertar_espec hb x).1⟩
  | limpiada hal ih =>
    obtain ⟨vs, ds, hb⟩ := ih
    rw [vaciar_espec hb]
    exact ⟨[], [], Cadena.nil, by simp, List.nodup_nil, by simp⟩
  | copiada hsrc =>
    rename_i h2 origen vs ds
    have hvac : BuenaLista h2 ListaSensor.nueva [] [] :=
      ⟨Cadena.nil, by simp [ListaSensor.nueva], List.nodup_nil, by simp⟩
    obtain ⟨cs, hb, _, _, _⟩ := duplicarDesde_espec hsrc hvac (by simp)
    exact ⟨_, _, by simpa [ListaSensor.copia] using hb⟩
  | asignada hal hsrc hdst hdisj ih =>
    rename_i h l origen vs ds vl dl
    have hres : ListaSensor.opAsignar h l origen false =
        ListaSensor.duplicarDesde (ListaSensor.vaciar h l).1 (ListaSensor.vaciar h l).2
          origen := by
      rw [ListaSensor.opAsignar]
      rfl
    rw [hres, vaciar_espec hdst]
    obtain ⟨hcsrc, hesrc, hndsrc, hltsrc⟩ := hsrc
    have hsrc1 : BuenaLista
        (⟨fun b => if b ∈ dl then none else h.celdas b, h.libre⟩ : Memoria T)
        origen vs ds := by
      refine ⟨cadena_marco hcsrc ?_, hesrc, hndsrc, hltsrc⟩
      intro d hd
      have : d ∉ dl := fun hmem => hdisj d hmem hd
      simp [this]
    have hvac : BuenaLista
        (⟨fun b => if b ∈ dl then none else h.celdas b, h.libre⟩ : Memoria T)
        (⟨none, 0⟩ : ListaSensor) [] [] :=
      ⟨Cadena.nil, by simp, List.nodup_nil, by simp⟩
    obtain ⟨cs, hb, _, _, _⟩ := duplicarDesde_espec hsrc1 hvac (by simp)
    exact ⟨_, _, by simpa using hb⟩
  | autoasignada hal ih =>
    obtain ⟨vs, ds, hb⟩ := ih
    exact ⟨vs, ds, by simpa [ListaSensor.opAsignar] using hb⟩

/-- C8: in every state reachable through the public interface the stored
count equals the number of nodes reachable from the head; `vaciar` leaves the
count at 0, and on an already-empty list `vaciar` changes nothing. -/
theorem c8_contador_igual_nodos {T : Type} {h : Memoria T} {l : ListaSensor}
    (hal : Alcanzable h l) :
    (∃ vs ds, Cadena h l.primero vs ds ∧ l.elementos = (ds.length : Int) ∧
      contarNodos h h.libre l.primero = ds.length) ∧
    (ListaSensor.vaciar h l).2.elementos = 0 ∧
    (l.primero = none → ListaSensor.vaciar h l = (h, l)) := by
  obtain ⟨vs, ds, hb⟩ := alcanzable_buena hal
  obtain ⟨hc, he, hnd, hlt⟩ := hb
  refine ⟨⟨vs, ds, hc, ?_, ?_⟩, ?_, ?_⟩
  · rw [he, cadena_longitud hc]
  · refine contarNodos_cuenta hc h.libre (longitud_de_acotada hnd hlt)
  · rw [vaciar_espec ⟨hc, he, hnd, hlt⟩]
  · intro hnil
    rw [hnil] at hc
    cases hc
    have hel : l.elementos = 0 := by simpa using he
    have hl : l = ⟨none, 0⟩ := by
      cases l with
      | mk p e =>
        simp at hnil hel
        rw [hnil, hel]
    rw [hl]
    exact vaciar_vacia h 0

/-- Well-formedness survives any heap change that leaves the footprint cells
alone and does not shrink the allocation counter. -/
theorem buena_marco {T : Type} {h h' : Memoria T} {l : ListaSensor} {vs : List T}
    {ds : List Nat} (hb : BuenaLista h l vs ds)
    (hm : ∀ d ∈ ds, h'.celdas d = h.celdas d) (hle : h.libre ≤ h'.libre) :
    BuenaLista h' l vs ds :=
  ⟨cadena_marco hb.1 hm, hb.2.1, hb.2.2.1,
   fun d hd => lt_of_lt_of_le (hb.2.2.2 d hd) hle⟩

/-- C5: copy construction and copy assignment produce an independent deep
copy of a populated list, holding the same values in the same order on a
footprint disjoint from the source, such that clearing the copy afterwards
leaves the source's chain (all its values and its count) intact; and the
`this != &origen` guard makes self-assignment a no-op. -/
theorem c5_copia_profunda_independiente {T : Type} {h : Memoria T} {A C : ListaSensor}
    {vsA vsC : List T} {dsA dsC : List Nat}
    (hA : BuenaLista h A vsA dsA) (hpop : vsA ≠ [])
    (hC : BuenaLista h C vsC dsC) (hdisj : ∀ d ∈ dsC, d ∉ dsA) :
    (∃ cs, BuenaLista (ListaSensor.copia h A).1 (ListaSensor.copia h A).2 vsA cs ∧
      ∀ c ∈ cs, c ∉ dsA) ∧
    BuenaLista (ListaSensor.vaciar (ListaSensor.copia h A).1
      (ListaSensor.copia h A).2).1 A vsA dsA ∧
    (∃ cs, BuenaLista (ListaSensor.opAsignar h C A false).1
      (ListaSensor.opAsignar h C A false).2 vsA cs) ∧
    BuenaLista (ListaSensor.vaciar (ListaSensor.opAsignar h C A false).1
      (ListaSensor.opAsignar h C A false).2).1 A vsA dsA ∧
    ListaSensor.opAsignar h A A true = (h, A) := by
  have hvac : BuenaLista h ListaSensor.nueva [] [] :=
    ⟨Cadena.nil, by simp [ListaSensor.nueva], List.nodup_nil, by simp⟩
  obtain ⟨cs, hbB0, hlibre, hmarco, hcs⟩ := duplicarDesde_espec hA hvac (by simp)
  have hbB : BuenaLista (ListaSensor.copia h A).1 (ListaSensor.copia h A).2 vsA cs := by
    simpa [ListaSensor.copia] using hbB0
  have hcsdisj : ∀ c ∈ cs, c ∉ dsA := by
    intro c hcmem hcd
    have h1 := hcs c hcmem
    have h2 := hA.2.2.2 c hcd
    omega
  have hA1 : BuenaLista (ListaSensor.copia h A).1 A vsA dsA := by
    refine buena_marco hA ?_ ?_
    · intro d hd
      have := hmarco d (by simp) (hA.2.2.2 d hd)
      simpa [ListaSensor.copia] using this
    · have : (ListaSensor.copia h A).1.libre = h.libre + vsA.length := by
        simpa [ListaSensor.copia] using hlibre
      omega
  refine ⟨⟨cs, hbB, hcsdisj⟩, ?_, ?_, ?_, ?_⟩
  · rw [vaciar_espec hbB]
    refine buena_marco hA1 ?_ (le_refl _)
    intro d hd
    have : d ∉ cs := fun hmem => hcsdisj d hmem hd
    simp [this]
  · have hres : ListaSensor.opAsignar h C A false =
        ListaSensor.duplicarDesde (ListaSensor.vaciar h C).1 (ListaSensor.vaciar h C).2
          A := rfl
    rw [hres, vaciar_espec hC]
    have hA1' : BuenaLista
        (⟨fun b => if b ∈ dsC then none else h.celdas b, h.libre⟩ : Memoria T)
        A vsA dsA := by
      refine buena_marco hA ?_ (le_refl _)
      intro d hd
      have : d ∉ dsC := fun hmem => hdisj d hmem hd
      simp [this]
    have hvac' : BuenaLista
        (⟨fun b => if b ∈ dsC then none else h.celdas b, h.libre⟩ : Memoria T)
        (⟨none, 0⟩ : ListaSensor) [] [] :=
      ⟨Cadena.nil, by simp, List.nodup_nil, by simp⟩
    obtain ⟨cs', hbB2, _, _, _⟩ := duplicarDesde_espec hA1' hvac' (by simp)
    exact ⟨cs', by simpa using hbB2⟩
  · have hres : ListaSensor.opAsignar h C A false =
        ListaSensor.duplicarDesde (ListaSensor.vaciar h C).1 (ListaSensor.vaciar h C).2
          A := rfl
    rw [hres, vaciar_espec hC]
    have hA1' : BuenaLista
        (⟨fun b => if b ∈ dsC then none else h.celdas b, h.libre⟩ : Memoria T)
        A vsA dsA := by
      refine buena_marco hA ?_ (le_refl _)
      intro d hd
      have : d ∉ dsC := fun hmem => hdisj d hmem hd
      simp [this]
    have hvac' : BuenaLista
        (⟨fun b => if b ∈ dsC then none else h.celdas b, h.libre⟩ : Memoria T)
        (⟨none, 0⟩ : ListaSensor) [] [] :=
      ⟨Cadena.nil, by simp, List.nodup_nil, by simp⟩
    obtain ⟨cs', hbB2, hlibre2, hmarco2, hcs2⟩ := duplicarDesde_espec hA1' hvac' (by simp)
    have hbB2' : BuenaLista
        (ListaSensor.duplicarDesde
          (⟨fun b => if b ∈ dsC then none else h.celdas b, h.libre⟩ : Memoria T)
          (⟨none, 0⟩ : ListaSensor) A).1
        (ListaSensor.duplicarDesde
          (⟨fun b => if b ∈ dsC then none else h.celdas b, h.libre⟩ : Memoria T)
          (⟨none, 0⟩ : ListaSensor) A).2 vsA cs' := by
      simpa using hbB2
    have hA2' : BuenaLista
        (ListaSensor.duplicarDesde
          (⟨fun b => if b ∈ dsC then none else h.celdas b, h.libre⟩ : Memoria T)
          (⟨none, 0⟩ : ListaSensor) A).1 A vsA dsA := by
      refine buena_marco hA1' ?_ ?_
      · intro d hd
        exact hmarco2 d (by simp) (hA1'.2.2.2 d hd)
      · rw [hlibre2]
        omega
    rw [vaciar_espec hbB2']
    refine buena_marco hA2' ?_ (le_refl _)
    intro d hd
    have : d ∉ cs' := by
      intro hmem
      have h1 := hcs2 d hmem
      have h2 := hA1'.2.2.2 d hd
      omega
    simp [this]
  · rfl

/-- Witness for C5: a concrete heap with the one-element list A = [5] at
address 0 and C = [7] at address 1. -/
theorem c5_copia_profunda_independiente_witness :
    BuenaLista (⟨fun d => if d = 0 then some ⟨(5 : ℤ), none⟩
        else if d = 1 then some ⟨(7 : ℤ), none⟩ else none, 2⟩ : Memoria ℤ)
      (⟨some 0, 1⟩ : ListaSensor) [5] [0] ∧
    ([5] : List ℤ) ≠ [] ∧
    BuenaLista (⟨fun d => if d = 0 then some ⟨(5 : ℤ), none⟩
        else if d = 1 then some ⟨(7 : ℤ), none⟩ else none, 2⟩ : Memoria ℤ)
      (⟨some 1, 1⟩ : ListaSensor) [7] [1] ∧
    (∀ d ∈ ([1] : List Nat), d ∉ ([0] : List Nat)) ∧
    ((∃ cs, BuenaLista
        (ListaSensor.copia (⟨fun d => if d = 0 then some ⟨(5 : ℤ), none⟩
          else if d = 1 then some ⟨(7 : ℤ), none⟩ else none, 2⟩ : Memoria ℤ)
          (⟨some 0, 1⟩ : ListaSensor)).1
        (ListaSensor.copia (⟨fun d => if d = 0 then some ⟨(5 : ℤ), none⟩
          else if d = 1 then some ⟨(7 : ℤ), none⟩ else none, 2⟩ : Memoria ℤ)
          (⟨some 0, 1⟩ : ListaSensor)).2 [5] cs ∧ ∀ c ∈ cs, c ∉ ([0] : List Nat)) ∧
      BuenaLista (ListaSensor.vaciar
        (ListaSensor.copia (⟨fun d => if d = 0 then some ⟨(5 : ℤ), none⟩
          else if d = 1 then some ⟨(7 : ℤ), none⟩ else none, 2⟩ : Memoria ℤ)
          (⟨some 0, 1⟩ : ListaSensor)).1
        (ListaSensor.copia (⟨fun d => if d = 0 then some ⟨(5 : ℤ), none⟩
          else if d = 1 then some ⟨(7 : ℤ), none⟩ else none, 2⟩ : Memoria ℤ)
          (⟨some 0, 1⟩ : ListaSensor)).2).1
        (⟨some 0, 1⟩ : ListaSensor) [5] [0] ∧
      (∃ cs, BuenaLista
        (ListaSensor.opAsignar (⟨fun d => if d = 0 then some ⟨(5 : ℤ), none⟩
          else if d = 1 then some ⟨(7 : ℤ), none⟩ else none, 2⟩ : Memoria ℤ)
          (⟨some 1, 1⟩ : ListaSensor) (⟨some 0, 1⟩ : ListaSensor) false).1
        (ListaSensor.opAsignar (⟨fun d => if d = 0 then some ⟨(5 : ℤ), none⟩
          else if d = 1 then some ⟨(7 : ℤ), none⟩ else none, 2⟩ : Memoria ℤ)
          (⟨some 1, 1⟩ : ListaSensor) (⟨some 0, 1⟩ : ListaSensor) false).2 [5] cs) ∧
      BuenaLista (ListaSensor.vaciar
        (ListaSensor.opAsignar (⟨fun d => if d = 0 then some ⟨(5 : ℤ), none⟩
          else if d = 1 then some ⟨(7 : ℤ), none⟩ else none, 2⟩ : Memoria ℤ)
          (⟨some 1, 1⟩ : ListaSensor) (⟨some 0, 1⟩ : ListaSensor) false).1
        (ListaSensor.opAsignar (⟨fun d => if d = 0 then some ⟨(5 : ℤ), none⟩
          else if d = 1 then some ⟨(7 : ℤ), none⟩ else none, 2⟩ : Memoria ℤ)
          (⟨some 1, 1⟩ : ListaSensor) (⟨some 0, 1⟩ : ListaSensor) false).2).1
        (⟨some 0, 1⟩ : ListaSensor) [5] [0] ∧
      ListaSensor.opAsignar (⟨fun d => if d = 0 then some ⟨(5 : ℤ), none⟩
          else if d = 1 then some ⟨(7 : ℤ), none⟩ else none, 2⟩ : Memoria ℤ)
        (⟨some 0, 1⟩ : ListaSensor) (⟨some 0, 1⟩ : ListaSensor) true =
        ((⟨fun d => if d = 0 then some ⟨(5 : ℤ), none⟩
          else if d = 1 then some ⟨(7 : ℤ), none⟩ else none, 2⟩ : Memoria ℤ),
         (⟨some 0, 1⟩ : ListaSensor))) := by
  have hA : BuenaLista (⟨fun d => if d = 0 then some ⟨(5 : ℤ), none⟩
      else if d = 1 then some ⟨(7 : ℤ), none⟩ else none, 2⟩ : Memoria ℤ)
      (⟨some 0, 1⟩ : ListaSensor) [5] [0] :=
    ⟨Cadena.cons rfl Cadena.nil, rfl, by decide, by decide⟩
  have hC : BuenaLista (⟨fun d => if d = 0 then some ⟨(5 : ℤ), none⟩
      else if d = 1 then some ⟨(7 : ℤ), none⟩ else none, 2⟩ : Memoria ℤ)
      (⟨some 1, 1⟩ : ListaSensor) [7] [1] :=
    ⟨Cadena.cons rfl Cadena.nil, rfl, by decide, by decide⟩
  exact ⟨hA, by decide, hC, by decide,
    c5_copia_profunda_independiente hA (by decide) hC (by decide)⟩

/-- Witness for C8: one append into a fresh list over an empty heap. -/
theorem c8_contador_igual_nodos_witness :
    Alcanzable (ListaSensor.insertarAlFinal (⟨fun _ => none, 0⟩ : Memoria ℤ)
        ListaSensor.nueva 3).1
      (ListaSensor.insertarAlFinal (⟨fun _ => none, 0⟩ : Memoria ℤ)
        ListaSensor.nueva 3).2 ∧
    ((∃ vs ds, Cadena (ListaSensor.insertarAlFinal (⟨fun _ => none, 0⟩ : Memoria ℤ)
          ListaSensor.nueva 3).1
        (ListaSensor.insertarAlFinal (⟨fun _ => none, 0⟩ : Memoria ℤ)
          ListaSensor.nueva 3).2.primero vs ds ∧
        (ListaSensor.insertarAlFinal (⟨fun _ => none, 0⟩ : Memoria ℤ)
          ListaSensor.nueva 3).2.elementos = (ds.length : Int) ∧
        contarNodos (ListaSensor.insertarAlFinal (⟨fun _ => none, 0⟩ : Memoria ℤ)
            ListaSensor.nueva 3).1
          (ListaSensor.insertarAlFinal (⟨fun _ => none, 0⟩ : Memoria ℤ)
            ListaSensor.nueva 3).1.libre
          (ListaSensor.insertarAlFinal (⟨fun _ => none, 0⟩ : Memoria ℤ)
            ListaSensor.nueva 3).2.primero = ds.length) ∧
      (ListaSensor.vaciar (ListaSensor.insertarAlFinal (⟨fun _ => none, 0⟩ : Memoria ℤ)
          ListaSensor.nueva 3).1
        (ListaSensor.insertarAlFinal (⟨fun _ => none, 0⟩ : Memoria ℤ)
          ListaSensor.nueva 3).2).2.elementos = 0 ∧
      ((ListaSensor.insertarAlFinal (⟨fun _ => none, 0⟩ : Memoria ℤ)
          ListaSensor.nueva 3).2.primero = none →
        ListaSensor.vaciar (ListaSensor.insertarAlFinal (⟨fun _ => none, 0⟩ : Memoria ℤ)
            ListaSensor.nueva 3).1
          (ListaSensor.insertarAlFinal (⟨fun _ => none, 0⟩ : Memoria ℤ)
            ListaSensor.nueva 3).2 =
          ((ListaSensor.insertarAlFinal (⟨fun _ => none, 0⟩ : Memoria ℤ)
            ListaSensor.nueva 3).1,
           (ListaSensor.insertarAlFinal (⟨fun _ => none, 0⟩ : Memoria ℤ)
            ListaSensor.nueva 3).2))) := by
  have hal : Alcanzable (ListaSensor.insertarAlFinal (⟨fun _ => none, 0⟩ : Memoria ℤ)
      ListaSensor.nueva 3).1
      (ListaSensor.insertarAlFinal (⟨fun _ => none, 0⟩ : Memoria ℤ)
        ListaSensor.nueva 3).2 :=
    Alcanzable.agregada 3 (Alcanzable.construida _)
  exact ⟨hal, c8_contador_igual_nodos hal⟩

/-- C9: with the channel open, a successful `leerLinea` delivers a non-empty
line with no terminator characters, consisting of exactly the bytes read
before a newline/carriage-return terminator with empty lines (consecutive
terminators) skipped, and a `false` return traces back to the first transport
error encountered. -/
theorem c9_leerLinea_lineas_completas (p : SerialPort) (entrada : List Lectura)
    (l : List Char) (resto resto2 : List Lectura)
    (hp : p.estadoConexion = true) (hd : 0 ≤ p.descriptorArchivo) :
    (SerialPort.leerLinea p entrada = .exito l resto →
      l ≠ [] ∧ (∀ c ∈ l, esTerminador c = false) ∧
      ∃ pre t, esTerminador t = true ∧ entrada = pre ++ .dato t :: resto ∧
        (∀ x ∈ pre, x ≠ .errorTransporte) ∧
        l = (pre.filterMap datoDe).filter fun c => esTerminador c = false) ∧
    (SerialPort.leerLinea p entrada = .fallo resto2 →
      ∃ pre, entrada = pre ++ .errorTransporte :: resto2 ∧
        ∀ x ∈ pre, x ≠ .errorTransporte) := by
  have hdf : decide (p.descriptorArchivo < 0) = false := by
    simp only [decide_eq_false_iff_not]
    omega
  constructor
  · intro hres
    rw [SerialPort.leerLinea, hp, hdf] at hres
    simp only [Bool.not_true, Bool.or_self, Bool.false_eq_true, if_false] at hres
    have := leerLineaAux_exito entrada [] l resto (by simp) hres
    simpa using this
  · intro hres
    rw [SerialPort.leerLinea, hp, hdf] at hres
    simp only [Bool.not_true, Bool.or_self, Bool.false_eq_true, if_false] at hres
    exact leerLineaAux_fallo entrada [] resto2 hres

/-- Witness for C9: an open port reading a leading empty line, then "hi". -/
theorem c9_leerLinea_lineas_completas_witness :
    (⟨3, true⟩ : SerialPort).estadoConexion = true ∧
    0 ≤ (⟨3, true⟩ : SerialPort).descriptorArchivo ∧
    ((SerialPort.leerLinea (⟨3, true⟩ : SerialPort)
        [.dato '\n', .dato 'h', .dato 'i', .dato '\n', .dato 'z'] =
        .exito ['h', 'i'] [.dato 'z'] →
      ['h', 'i'] ≠ [] ∧ (∀ c ∈ ['h', 'i'], esTerminador c = false) ∧
      ∃ pre t, esTerminador t = true ∧
        [.dato '\n', .dato 'h', .dato 'i', .dato '\n', .dato 'z'] =
          pre ++ .dato t :: [.dato 'z'] ∧
        (∀ x ∈ pre, x ≠ .errorTransporte) ∧
        ['h', 'i'] = (pre.filterMap datoDe).filter fun c => esTerminador c = false) ∧
    (SerialPort.leerLinea (⟨3, true⟩ : SerialPort)
        [.dato '\n', .dato 'h', .dato 'i', .dato '\n', .dato 'z'] = .fallo [] →
      ∃ pre : List Lectura,
        ([.dato '\n', .dato 'h', .dato 'i', .dato '\n', .dato 'z'] : List Lectura) =
          pre ++ Lectura.errorTransporte :: [] ∧
        ∀ x ∈ pre, x ≠ Lectura.errorTransporte)) :=
  ⟨rfl, by decide,
   c9_leerLinea_lineas_completas (⟨3, true⟩ : SerialPort)
     [.dato '\n', .dato 'h', .dato 'i', .dato '\n', .dato 'z']
     ['h', 'i'] [.dato 'z'] [] rfl (by decide)⟩

/-- C10: on a closed channel (never opened or already closed) `leerLinea`
returns failure at once, consuming nothing from the transport; the channel
state itself is untouched (the embedded `leerLinea` writes no field). -/
theorem c10_leerLinea_cerrado_falla (p : SerialPort) (entrada : List Lectura)
    (hc : p.estadoConexion = false) :
    SerialPort.leerLinea p entrada = .fallo entrada := by
  rw [SerialPort.leerLinea, hc]
  simp

/-- Witness for C10: the default-constructed (never opened) port, and a port
closed by `cerrar` after being open, both fail immediately. -/
theorem c10_leerLinea_cerrado_falla_witness :
    SerialPort.nuevo.estadoConexion = false ∧
    (SerialPort.cerrar ⟨3, true⟩).estadoConexion = false ∧
    SerialPort.leerLinea SerialPort.nuevo [.dato 'a'] = .fallo [.dato 'a'] ∧
    SerialPort.leerLinea (SerialPort.cerrar ⟨3, true⟩) [.dato 'a'] = .fallo [.dato 'a'] :=
  ⟨rfl, by decide,
   c10_leerLinea_cerrado_falla SerialPort.nuevo [.dato 'a'] rfl,
   c10_leerLinea_cerrado_falla (SerialPort.cerrar ⟨3, true⟩) [.dato 'a'] (by decide)⟩
